import Mathlib

/-!
A shallow embedding of the insights computation engine of the fitness-tracking
backend (`main.py`), together with theorems checking the specification's claims
about it.

Modelling conventions:
* A Python `datetime` (always timezone-aware UTC here) is modelled as an `Int`
  counting microseconds since 1970-01-01T00:00:00Z; a Python `date` is the
  floor-division of that count by the number of microseconds per day (so day 0
  is 1970-01-01, a Thursday, and `Int` division, which floors for a positive
  divisor, matches Python's calendar arithmetic on negative instants too).
* Python dictionaries coming from the persistence layer are modelled as
  structures with `Option` fields; `dict.get(k, d)` becomes `Option.getD`.
  `convert_decimal` (Decimal → int coercion) is the identity in the model,
  since numeric attribute values are already modelled as `Int`.
* Python floats are modelled as exact rationals (`ℚ`); `round(x, 1)` is
  modelled as exact round-half-to-even at one decimal, Python's rule.
* Python truthiness on optional strings/ints (`if not target_type or not
  target_value`) is modelled explicitly: `None` and `""` are falsy for the
  string, `None` and `0` are falsy for the value.
-/

namespace FitnessBackend

/-- Microseconds per calendar day. -/
def usPerDay : Int := 86400000000

/-- The calendar day of an instant (days since 1970-01-01, floored). -/
def dayOf (t : Int) : Int := t / usPerDay

/-- Python `datetime.weekday()` : Monday = 0 .. Sunday = 6.
1970-01-01 (day 0) was a Thursday, weekday index 3. -/
def pyWeekday (t : Int) : Int := (dayOf t + 3) % 7

/-- Function `get_week_bounds` of `main.py`: start (Sunday midnight) and end
(Saturday 23:59:59) of the week `weeks_ago` weeks before the reference. -/
def get_week_bounds (reference : Int) (weeksAgo : Int) : Int × Int :=
  let days_since_sunday := (pyWeekday reference + 1) % 7
  let week_start := reference - (days_since_sunday + 7 * weeksAgo) * usPerDay
  let week_start := dayOf week_start * usPerDay
  let week_end := week_start + 6 * usPerDay + 86399 * 1000000
  (week_start, week_end)

/-- Gregorian calendar date (year, month, day) of a day count since
1970-01-01 (the standard civil-from-days algorithm). -/
def civilFromDays (z0 : Int) : Int × Int × Int :=
  let z := z0 + 719468
  let era := z / 146097
  let doe := z - era * 146097
  let yoe := (doe - doe / 1460 + doe / 36524 - doe / 146096) / 365
  let y := yoe + era * 400
  let doy := doe - (365 * yoe + yoe / 4 - yoe / 100)
  let mp := (5 * doy + 2) / 153
  let d := doy - (153 * mp + 2) / 5 + 1
  let m := mp + (if mp < 10 then 3 else -9)
  (y + (if m ≤ 2 then 1 else 0), m, d)

/-- Abbreviated month name, as `strftime("%b")` renders it. -/
def monthAbbrev (m : Int) : String :=
  if m = 1 then "Jan" else if m = 2 then "Feb" else if m = 3 then "Mar"
  else if m = 4 then "Apr" else if m = 5 then "May" else if m = 6 then "Jun"
  else if m = 7 then "Jul" else if m = 8 then "Aug" else if m = 9 then "Sep"
  else if m = 10 then "Oct" else if m = 11 then "Nov" else "Dec"

/-- Zero-padded two-digit rendering of a day/month number. -/
def pad2 (n : Int) : String :=
  if n < 10 then "0" ++ toString n else toString n

/-- Zero-padded four-digit rendering of a year (years 1..9999). -/
def pad4 (n : Int) : String :=
  if n < 10 then "000" ++ toString n
  else if n < 100 then "00" ++ toString n
  else if n < 1000 then "0" ++ toString n
  else toString n

/-- Python `strftime("%b %d")` applied to an instant, e.g. "Jan 05". -/
def monthDayLabel (t : Int) : String :=
  let c := civilFromDays (dayOf t)
  monthAbbrev c.2.1 ++ " " ++ pad2 c.2.2

/-- Python `date.isoformat()` applied to a day count: "YYYY-MM-DD". -/
def isoDate (day : Int) : String :=
  let c := civilFromDays day
  pad4 c.1 ++ "-" ++ pad2 c.2.1 ++ "-" ++ pad2 c.2.2

/-- Python `strftime("%A")`: full weekday name of an instant. -/
def dayName (t : Int) : String :=
  let w := pyWeekday t
  if w = 0 then "Monday" else if w = 1 then "Tuesday"
  else if w = 2 then "Wednesday" else if w = 3 then "Thursday"
  else if w = 4 then "Friday" else if w = 5 then "Saturday" else "Sunday"

/-- A workout item as it reaches the insight calculators: a DynamoDB record
decorated with its parsed timestamp (`parsed_date`, always present after the
normalizer runs). The numeric and type attributes are read defensively with
`dict.get`, so they are optional here. -/
structure WorkoutItem where
  parsed_date : Int
  duration : Option Int := none
  calories : Option Int := none
  type : Option String := none
deriving DecidableEq, Repr

/-- Reading `w.get('duration', 0)` (after `convert_decimal`). -/
def durOf (w : WorkoutItem) : Int := w.duration.getD 0

/-- Reading `w.get('calories', 0)` (after `convert_decimal`). -/
def calOf (w : WorkoutItem) : Int := w.calories.getD 0

/-- Reading `w.get('type', 'Unknown')`. -/
def typeOf (w : WorkoutItem) : String := w.type.getD "Unknown"

/-- The profile fields the weekly-progress calculator reads
(`profile.get('weekly_target_type')`, `profile.get('weekly_target_value')`). -/
structure ProfileGoal where
  weekly_target_type : Option String := none
  weekly_target_value : Option Int := none
deriving DecidableEq, Repr

/-- Python truthiness test `not s` for an optional string. -/
def falsyStr (s : Option String) : Bool :=
  match s with
  | none => true
  | some v => v = ""

/-- Python truthiness test `not v` for an optional integer. -/
def falsyInt (v : Option Int) : Bool :=
  match v with
  | none => true
  | some v => v = 0

/-- Result model `WeeklyProgress`. -/
structure WeeklyProgress where
  current : Int
  target : Int
  unit : String
  percentage : ℚ
deriving DecidableEq, Repr

/-- Is the instant `t` inside the inclusive week window `weeksAgo` weeks
before `now`? (the filter `week_start <= w['parsed_date'] <= week_end`). -/
def inWeek (now : Int) (weeksAgo : Int) (t : Int) : Bool :=
  let b := get_week_bounds now weeksAgo
  decide (b.1 ≤ t ∧ t ≤ b.2)

/-- Function `calculate_weekly_progress` of `main.py`, with the internal
`datetime.now(timezone.utc)` made an explicit `now` parameter. -/
def calculate_weekly_progress (now : Int) (workouts : List WorkoutItem)
    (profile : ProfileGoal) : Option WeeklyProgress :=
  let target_type := profile.weekly_target_type
  let target_value := profile.weekly_target_value
  if falsyStr target_type ∨ falsyInt target_value then none
  else
    let this_week := workouts.filter (fun w => inWeek now 0 w.parsed_date)
    let current : Int :=
      if target_type = some "workouts" then this_week.length
      else (this_week.map durOf).sum
    let unit : String :=
      if target_type = some "workouts" then "workouts" else "minutes"
    let target := target_value.getD 0
    let percentage : ℚ :=
      if target > 0 then (current : ℚ) / (target : ℚ) * 100 else 0
    some { current := current, target := target, unit := unit,
           percentage := min percentage 100 }

/-- Result model `WeekComparison`. -/
structure WeekComparison where
  this_week_workouts : Nat
  last_week_workouts : Nat
  this_week_duration : Int
  last_week_duration : Int
  this_week_calories : Int
  last_week_calories : Int
  workout_change_percent : ℚ
  duration_change_percent : ℚ
  calories_change_percent : ℚ
deriving DecidableEq, Repr

/-- The nested `calc_change` of `calculate_week_comparison`. -/
def calc_change (current previous : Int) : ℚ :=
  if previous = 0 then (if current > 0 then 100 else 0)
  else ((current : ℚ) - (previous : ℚ)) / (previous : ℚ) * 100

/-- Function `calculate_week_comparison` of `main.py`, `now` made explicit. -/
def calculate_week_comparison (now : Int) (workouts : List WorkoutItem) :
    WeekComparison :=
  let this_week := workouts.filter (fun w => inWeek now 0 w.parsed_date)
  let last_week := workouts.filter (fun w => inWeek now 1 w.parsed_date)
  let twd := (this_week.map durOf).sum
  let lwd := (last_week.map durOf).sum
  let twc := (this_week.map calOf).sum
  let lwc := (last_week.map calOf).sum
  { this_week_workouts := this_week.length
    last_week_workouts := last_week.length
    this_week_duration := twd
    last_week_duration := lwd
    this_week_calories := twc
    last_week_calories := lwc
    workout_change_percent := calc_change this_week.length last_week.length
    duration_change_percent := calc_change twd lwd
    calories_change_percent := calc_change twc lwc }

/-- Result model `StreakInfo`. -/
structure StreakInfo where
  current_streak : Nat
  longest_streak : Nat
  last_workout_date : Option String
deriving DecidableEq, Repr

/-- Insert a date into a strictly-descending duplicate-free list, keeping it
strictly descending and duplicate-free. `sortedUniqueDesc` built from this
models `sorted(set(dates), reverse=True)`. -/
def insertDesc (d : Int) : List Int → List Int
  | [] => [d]
  | x :: xs =>
      if d > x then d :: x :: xs
      else if d = x then x :: xs
      else x :: insertDesc d xs

/-- Python `sorted(set(dates), reverse=True)`: the unique dates, descending. -/
def sortedUniqueDesc (dates : List Int) : List Int :=
  dates.foldr insertDesc []

/-- The current-streak extension loop of `calculate_streak`: walk the
remaining (descending) dates with a running cursor `check`; a date equal to
the cursor extends the streak and moves the cursor back one day, a date below
the cursor breaks, and a date above the cursor is skipped (Python's `for`
continues when neither branch of `if`/`elif` fires). -/
def currentStreakLoop (check : Int) : List Int → Nat
  | [] => 0
  | d :: ds =>
      if d = check then 1 + currentStreakLoop (d - 1) ds
      else if d < check then 0
      else currentStreakLoop check ds

/-- The longest-streak scan of `calculate_streak`: `prev` is the previous
date, `run` the current run length, `best` the maximum seen so far. -/
def longestStreakLoop (prev : Int) (run best : Nat) : List Int → Nat
  | [] => best
  | d :: ds =>
      if d = prev - 1 then longestStreakLoop d (run + 1) (max best (run + 1)) ds
      else longestStreakLoop d 1 best ds

/-- Function `calculate_streak` of `main.py`, with `datetime.now(timezone.utc)` made
an explicit `now` parameter (`today` is its date, `yesterday` one day back). -/
def calculate_streak (now : Int) (workouts : List WorkoutItem) : StreakInfo :=
  if workouts.isEmpty then
    { current_streak := 0, longest_streak := 0, last_workout_date := none }
  else
    let sorted_dates := sortedUniqueDesc (workouts.map (fun w => dayOf w.parsed_date))
    match sorted_dates with
    | [] => { current_streak := 0, longest_streak := 0, last_workout_date := none }
    | m :: rest =>
        let today := dayOf now
        let yesterday := today - 1
        let current_streak :=
          if m ≥ yesterday then 1 + currentStreakLoop (m - 1) rest else 0
        let longest_streak := longestStreakLoop m 1 1 rest
        { current_streak := current_streak
          longest_streak := longest_streak
          last_workout_date := some (isoDate m) }

/-- Result model `WorkoutFrequencyPoint`. -/
structure WorkoutFrequencyPoint where
  date : String
  count : Nat
deriving DecidableEq, Repr

/-- Result model `CaloriesOverTimePoint`. -/
structure CaloriesOverTimePoint where
  date : String
  calories : Int
deriving DecidableEq, Repr

/-- Function `calculate_workout_frequency` of `main.py`: one point per week, for
`weeks_ago` from 7 down to 0. -/
def calculate_workout_frequency (now : Int) (workouts : List WorkoutItem) :
    List WorkoutFrequencyPoint :=
  (List.range 8).reverse.map (fun weeksAgo =>
    let week_workouts := workouts.filter (fun w => inWeek now weeksAgo w.parsed_date)
    { date := monthDayLabel (get_week_bounds now weeksAgo).1
      count := week_workouts.length })

/-- Function `calculate_calories_over_time` of `main.py`. -/
def calculate_calories_over_time (now : Int) (workouts : List WorkoutItem) :
    List CaloriesOverTimePoint :=
  (List.range 8).reverse.map (fun weeksAgo =>
    let week_workouts := workouts.filter (fun w => inWeek now weeksAgo w.parsed_date)
    { date := monthDayLabel (get_week_bounds now weeksAgo).1
      calories := (week_workouts.map calOf).sum })

/-- Result model `ConsistencyStats`. -/
structure ConsistencyStats where
  total_workouts : Nat
  total_duration : Int
  total_calories : Int
  avg_workouts_per_week : ℚ
  avg_duration_per_workout : ℚ
  most_active_day : String
  favorite_workout_type : String
deriving DecidableEq, Repr

/-- Round a rational to the nearest integer, ties to even — Python's
`round` rule (floats are modelled as exact rationals). -/
def roundHalfEven (q : ℚ) : Int :=
  let f := ⌊q⌋
  let r := q - (f : ℚ)
  if r < 1 / 2 then f
  else if r > 1 / 2 then f + 1
  else if f % 2 = 0 then f else f + 1

/-- Python `round(x, 1)`. -/
def round1 (q : ℚ) : ℚ := (roundHalfEven (q * 10) : ℚ) / 10

/-- Python `str.capitalize()`: first character uppercased, all following
characters lowercased (ASCII case mapping suffices for the data here). -/
def pyCapitalize (s : String) : String :=
  match s.data with
  | [] => ""
  | c :: cs => String.mk (c.toUpper :: cs.map Char.toLower)

/-- One `counts[k] = counts.get(k, 0) + 1` step over an insertion-ordered
association list — the model of a Python dict used as a counter. -/
def bumpKey (acc : List (String × Nat)) (k : String) : List (String × Nat) :=
  if acc.any (fun p => p.1 = k) then
    acc.map (fun p => if p.1 = k then (p.1, p.2 + 1) else p)
  else acc ++ [(k, 1)]

/-- Count occurrences of each key, keys in first-occurrence order — the
model of building a Python dict counter by iteration. -/
def tally (keys : List String) : List (String × Nat) :=
  keys.foldl bumpKey []

/-- Python `max(counts, key=counts.get)` over an insertion-ordered counter:
the first key attaining the maximal count (replacement only on strictly
greater). `dflt` is returned for an empty counter (the guarded `'N/A'`). -/
def firstMaxKey (l : List (String × Nat)) (dflt : String) : String :=
  match l with
  | [] => dflt
  | x :: xs => (xs.foldl (fun best p => if p.2 > best.2 then p else best) x).1

/-- Function `calculate_consistency_stats` of `main.py`. -/
def calculate_consistency_stats (workouts : List WorkoutItem) : ConsistencyStats :=
  match workouts with
  | [] =>
      { total_workouts := 0, total_duration := 0, total_calories := 0,
        avg_workouts_per_week := 0, avg_duration_per_workout := 0,
        most_active_day := "N/A", favorite_workout_type := "N/A" }
  | w0 :: rest =>
      let all := w0 :: rest
      let total_workouts := all.length
      let total_duration := (all.map durOf).sum
      let total_calories := (all.map calOf).sum
      let dmax := (rest.map (fun x => dayOf x.parsed_date)).foldl max (dayOf w0.parsed_date)
      let dmin := (rest.map (fun x => dayOf x.parsed_date)).foldl min (dayOf w0.parsed_date)
      let date_range := dmax - dmin + 1
      let weeks : ℚ := max ((date_range : ℚ) / 7) 1
      let avg_workouts_per_week := round1 ((total_workouts : ℚ) / weeks)
      let avg_duration := round1 ((total_duration : ℚ) / (total_workouts : ℚ))
      let day_counts := tally (all.map (fun x => dayName x.parsed_date))
      let most_active_day := firstMaxKey day_counts "N/A"
      let type_counts := tally (all.map typeOf)
      let favorite_type := firstMaxKey type_counts "N/A"
      { total_workouts := total_workouts
        total_duration := total_duration
        total_calories := total_calories
        avg_workouts_per_week := avg_workouts_per_week
        avg_duration_per_workout := avg_duration
        most_active_day := most_active_day
        favorite_workout_type :=
          if favorite_type ≠ "N/A" then pyCapitalize favorite_type else "N/A" }

/-- A stored workout record, as the persistence layer returns it
(a DynamoDB item: every attribute may be absent). -/
structure WorkoutRec where
  id : Option String := none
  user_id : Option String := none
  type : Option String := none
  duration : Option Int := none
  calories : Option Int := none
  timestamp : Option String := none
deriving DecidableEq, Repr

/-- A stored planned-workout record. -/
structure PlannedWorkoutRec where
  id : Option String := none
  user_id : Option String := none
  workout_type : String := ""
  planned_date : String := ""
  planned_time : Option String := none
  planned_duration : Int := 0
  notes : Option String := none
  created_at : Option String := none
  completed : Bool := false
  completed_workout_id : Option String := none
deriving DecidableEq, Repr

/-- A DynamoDB table keyed by record id (point lookup only is needed by the
single-record handlers). -/
def Table (α : Type) : Type := String → Option α

/-- The call `table.delete_item` removing the item with id `k`. -/
def eraseKey {α : Type} (t : Table α) (k : String) : Table α :=
  fun q => if q = k then none else t q

/-- The call `table.put_item` storing item `v` under id `k`. -/
def putKey {α : Type} (t : Table α) (k : String) (v : α) : Table α :=
  fun q => if q = k then some v else t q

/-- Handler `delete_workout`: ownership-checked delete. Returns the HTTP
response (404 detail on the error side) paired with the post-state of the
table. -/
def delete_workout (table : Table WorkoutRec) (workout_id user_id : String) :
    Except String String × Table WorkoutRec :=
  match table workout_id with
  | none => (Except.error "Workout not found", table)
  | some item =>
      if item.user_id = some user_id then
        (Except.ok ("Workout " ++ workout_id ++ " deleted."),
         eraseKey table workout_id)
      else (Except.error "Workout not found", table)

/-- Handler `get_planned_workout`: ownership-checked point read (no
mutation, so only the response is returned). -/
def get_planned_workout (table : Table PlannedWorkoutRec)
    (workout_id user_id : String) : Except String PlannedWorkoutRec :=
  match table workout_id with
  | none => Except.error "Planned workout not found"
  | some item =>
      if item.user_id = some user_id then Except.ok item
      else Except.error "Planned workout not found"

/-- Handler `update_planned_workout`: ownership-checked full overwrite; the
request body's `id` and `user_id` are forced to the path id and the
authenticated user before the put. -/
def update_planned_workout (table : Table PlannedWorkoutRec)
    (workout_id : String) (workout : PlannedWorkoutRec) (user_id : String) :
    Except String PlannedWorkoutRec × Table PlannedWorkoutRec :=
  match table workout_id with
  | none => (Except.error "Planned workout not found", table)
  | some existing =>
      if existing.user_id = some user_id then
        let updated := { workout with id := some workout_id, user_id := some user_id }
        (Except.ok updated, putKey table workout_id updated)
      else (Except.error "Planned workout not found", table)

/-- Handler `delete_planned_workout`: ownership-checked delete. -/
def delete_planned_workout (table : Table PlannedWorkoutRec)
    (workout_id user_id : String) :
    Except String String × Table PlannedWorkoutRec :=
  match table workout_id with
  | none => (Except.error "Planned workout not found", table)
  | some item =>
      if item.user_id = some user_id then
        (Except.ok ("Planned workout " ++ workout_id ++ " deleted."),
         eraseKey table workout_id)
      else (Except.error "Planned workout not found", table)

/-- Specification-side count of the unbroken run of consecutive descending
days starting exactly at `c`: the number of leading entries of the list that
form the chain `c, c-1, c-2, …`. -/
def consecRun (c : Int) : List Int → Nat
  | [] => 0
  | d :: ds => if d = c then 1 + consecRun (c - 1) ds else 0

/-- Specification-side read of a counter association list: the count stored
under the first entry for `k`, 0 when none exists (`counts.get(k, 0)`). -/
def lookupCount (acc : List (String × Nat)) (k : String) : Nat :=
  match acc.find? (fun p => p.1 = k) with
  | some p => p.2
  | none => 0

/-- Does the counter association list have an entry for key `k`? -/
def hasKey (acc : List (String × Nat)) (k : String) : Bool :=
  acc.any (fun p => p.1 = k)

/-- A sample one-record planned-workouts table (record `"w1"` owned by
`"alice"`), used to instantiate ownership theorems. -/
def samplePlannedTable : Table PlannedWorkoutRec :=
  fun k => if k = "w1" then some { user_id := some "alice" } else none

/-! ## Theorems -/

/-- C5: for every reference instant and every natural number `weeks_ago`,
`get_week_bounds` returns a pair `(start, end)` where `start` is a Sunday
(weekday index 6) truncated to midnight, `end` is exactly `start` plus
6 days, 23 hours, 59 minutes, 59 seconds, and `start` is the reference's
calendar day minus (days elapsed since the most recent Sunday, inclusive of
today) minus `7 × weeks_ago` days, at midnight. -/
theorem get_week_bounds_spec (reference : Int) (weeksAgo : Nat) :
    (get_week_bounds reference weeksAgo).1 % usPerDay = 0 ∧
    pyWeekday (get_week_bounds reference weeksAgo).1 = 6 ∧
    (get_week_bounds reference weeksAgo).2 =
      (get_week_bounds reference weeksAgo).1 + 6 * usPerDay + 86399 * 1000000 ∧
    (get_week_bounds reference weeksAgo).1 =
      (dayOf reference - ((pyWeekday reference + 1) % 7 + 7 * (weeksAgo : Int)))
        * usPerDay := by
  unfold get_week_bounds pyWeekday dayOf usPerDay
  dsimp only
  omega

/-- C4: the percent-change function `calc_change` used by
`calculate_week_comparison` returns 100 for positive growth from a zero
previous value, 0 when both are zero, the exact relative change otherwise,
and in particular satisfies the four quoted example values. -/
theorem calc_change_spec (current previous : Int) :
    (previous = 0 → 0 < current → calc_change current previous = 100) ∧
    (previous = 0 → current = 0 → calc_change current previous = 0) ∧
    (previous ≠ 0 → calc_change current previous =
      ((current : ℚ) - (previous : ℚ)) / (previous : ℚ) * 100) ∧
    calc_change 0 0 = 0 ∧ calc_change 5 0 = 100 ∧
    calc_change 10 5 = 100 ∧ calc_change 5 10 = -50 := by
  refine ⟨?_, ?_, ?_, by norm_num [calc_change], by norm_num [calc_change],
    by norm_num [calc_change], by norm_num [calc_change]⟩
  · intro h hc
    simp [calc_change, h, hc]
  · intro h hc
    simp [calc_change, h, hc]
  · intro h
    simp [calc_change, h]

/-- Witness for C4 at concrete inputs. -/
theorem calc_change_spec_witness :
    calc_change 5 0 = 100 ∧ calc_change 0 0 = 0 ∧
    calc_change 5 10 = ((5 : ℚ) - (10 : ℚ)) / (10 : ℚ) * 100 :=
  ⟨(calc_change_spec 5 0).1 rfl (by decide),
   (calc_change_spec 0 0).2.1 rfl rfl,
   (calc_change_spec 5 10).2.2.1 (by decide)⟩

/-- C1 counterexample: a profile with a target type set ("workouts", not
falsy) and a target value equal to 0 yields the absent result, not a
`WeeklyProgress` with percentage 0 — Python truthiness (`not target_value`)
treats 0 like `None`. -/
theorem calculate_weekly_progress_counterexample :
    calculate_weekly_progress 0 []
      { weekly_target_type := some "workouts", weekly_target_value := some 0 } = none ∧
    falsyStr (some "workouts") = false := by decide

/-- C1 (amended): `calculate_weekly_progress` returns the absent result
exactly when the profile's target type is absent or empty, or its target
value is absent or zero; any result returned carries the (nonzero) target,
the current count/minutes of this week's workouts, percentage
`current / target × 100` clamped to a maximum of 100 when the target is
positive, and percentage 0 when the target is negative. -/
theorem calculate_weekly_progress_spec (now : Int) (workouts : List WorkoutItem)
    (profile : ProfileGoal) :
    (calculate_weekly_progress now workouts profile = none ↔
      (falsyStr profile.weekly_target_type = true ∨
       falsyInt profile.weekly_target_value = true)) ∧
    (∀ r, calculate_weekly_progress now workouts profile = some r →
      r.target = profile.weekly_target_value.getD 0 ∧
      r.target ≠ 0 ∧
      r.current = (if profile.weekly_target_type = some "workouts"
          then ((workouts.filter (fun w => inWeek now 0 w.parsed_date)).length : Int)
          else ((workouts.filter (fun w => inWeek now 0 w.parsed_date)).map durOf).sum) ∧
      (0 < r.target →
        r.percentage = min ((r.current : ℚ) / (r.target : ℚ) * 100) 100) ∧
      (r.target < 0 → r.percentage = 0)) := by
  by_cases hc : (falsyStr profile.weekly_target_type = true ∨
      falsyInt profile.weekly_target_value = true)
  · refine ⟨by simp [calculate_weekly_progress, hc], fun r hr => ?_⟩
    simp [calculate_weekly_progress, hc] at hr
  · refine ⟨by simp [calculate_weekly_progress, hc], fun r hr => ?_⟩
    simp only [calculate_weekly_progress] at hr
    rw [if_neg hc] at hr
    injection hr with hr
    subst hr
    refine ⟨rfl, ?_, rfl, ?_, ?_⟩
    · match htv : profile.weekly_target_value with
      | none => simp [falsyInt, htv] at hc
      | some v =>
          simp only [falsyInt, htv] at hc ⊢
          simp only [Option.getD_some]
          intro h0
          exact hc (Or.inr (by simp [h0]))
    · intro hpos
      dsimp only at hpos ⊢
      rw [if_pos hpos]
    · intro hneg
      dsimp only at hneg ⊢
      rw [if_neg (by omega : ¬ (profile.weekly_target_value.getD 0 > 0))]
      norm_num

/-- Witness for C1 at a concrete configured goal (30 of 60 minutes → 50%). -/
theorem calculate_weekly_progress_spec_witness :
    ({ current := 30, target := 60, unit := "minutes", percentage := 50 } :
        WeeklyProgress).percentage =
      min ((({ current := 30, target := 60, unit := "minutes", percentage := 50 } :
            WeeklyProgress).current : ℚ) /
          (({ current := 30, target := 60, unit := "minutes", percentage := 50 } :
            WeeklyProgress).target : ℚ) * 100) 100 := by
  have h := (calculate_weekly_progress_spec 0 [⟨0, some 30, none, none⟩]
      ⟨some "minutes", some 60⟩).2 ⟨30, 60, "minutes", 50⟩ (by
    norm_num [calculate_weekly_progress, inWeek, get_week_bounds, pyWeekday, dayOf,
      usPerDay, falsyStr, falsyInt, durOf]
    refine ⟨by decide, by decide, fun hh => absurd hh (by decide), ?_⟩
    rw [if_neg (by decide)]
    norm_num)
  exact h.2.2.2.1 (by norm_num)

/-- C3 counterexample: one this-week workout with duration −10 and a
minutes target of 10 produce percentage −100, outside [0, 100] — the `min`
clamp only bounds the percentage from above. -/
theorem weekly_progress_percentage_counterexample :
    calculate_weekly_progress 0 [⟨0, some (-10), none, none⟩]
      ⟨some "minutes", some 10⟩ = some ⟨-10, 10, "minutes", -100⟩ ∧
    ((-100 : ℚ) < 0) := by
  constructor
  · norm_num [calculate_weekly_progress, inWeek, get_week_bounds, pyWeekday, dayOf,
      usPerDay, falsyStr, falsyInt, durOf]
    refine ⟨by decide, by decide, fun hh => absurd hh (by decide), ?_⟩
    rw [if_neg (by decide)]
    norm_num
  · norm_num

/-- C3 (amended): when every workout's duration is nonnegative (as the data
model expects but does not enforce), any `WeeklyProgress` returned by
`calculate_weekly_progress` has its percentage in the closed interval
[0, 100]. -/
theorem weekly_progress_percentage_bounds (now : Int) (workouts : List WorkoutItem)
    (profile : ProfileGoal) (r : WeeklyProgress)
    (hd : ∀ w ∈ workouts, 0 ≤ durOf w)
    (h : calculate_weekly_progress now workouts profile = some r) :
    0 ≤ r.percentage ∧ r.percentage ≤ 100 := by
  by_cases hc : (falsyStr profile.weekly_target_type = true ∨
      falsyInt profile.weekly_target_value = true)
  · simp [calculate_weekly_progress, hc] at h
  · simp only [calculate_weekly_progress] at h
    rw [if_neg hc] at h
    injection h with h
    subst h
    dsimp only
    have hcur : (0 : Int) ≤ (if profile.weekly_target_type = some "workouts"
        then ((workouts.filter (fun w => inWeek now 0 w.parsed_date)).length : Int)
        else ((workouts.filter (fun w => inWeek now 0 w.parsed_date)).map durOf).sum) := by
      split
      · exact Int.ofNat_nonneg _
      · refine List.sum_nonneg ?_
        intro x hx
        simp only [List.mem_map] at hx
        obtain ⟨w, hw, rfl⟩ := hx
        exact hd w (List.mem_of_mem_filter hw)
    constructor
    · refine le_min ?_ (by norm_num)
      split
      · have h1 : (0 : ℚ) ≤ ((if profile.weekly_target_type = some "workouts"
            then ((workouts.filter (fun w => inWeek now 0 w.parsed_date)).length : Int)
            else ((workouts.filter (fun w => inWeek now 0 w.parsed_date)).map durOf).sum : Int) : ℚ) := by
          exact_mod_cast hcur
        have h2 : (0 : ℚ) ≤ ((profile.weekly_target_value.getD 0 : Int) : ℚ) := by
          have : (0 : Int) < profile.weekly_target_value.getD 0 := by omega
          exact_mod_cast le_of_lt this
        positivity
      · exact le_rfl
    · exact min_le_right _ _

/-- Witness for C3 at a concrete nonnegative-duration input. -/
theorem weekly_progress_percentage_bounds_witness :
    0 ≤ ({ current := 30, target := 60, unit := "minutes", percentage := 50 } :
        WeeklyProgress).percentage ∧
    ({ current := 30, target := 60, unit := "minutes", percentage := 50 } :
        WeeklyProgress).percentage ≤ 100 :=
  weekly_progress_percentage_bounds 0 [⟨0, some 30, none, none⟩]
    ⟨some "minutes", some 60⟩ ⟨30, 60, "minutes", 50⟩
    (by intro w hw; simp only [List.mem_singleton] at hw; subst hw; decide)
    (by
      norm_num [calculate_weekly_progress, inWeek, get_week_bounds, pyWeekday, dayOf,
        usPerDay, falsyStr, falsyInt, durOf]
      refine ⟨by decide, by decide, fun hh => absurd hh (by decide), ?_⟩
      rw [if_neg (by decide)]
      norm_num)

/-- C7: each single-record operation (`delete_workout`,
`get_planned_workout`, `update_planned_workout`, `delete_planned_workout`)
succeeds exactly when the fetched record exists and its `user_id` equals the
requesting user's id; otherwise it fails with the not-found error and leaves
the table unchanged; any record returned by the read carries the caller's
user id, as does the record written by the update. -/
theorem ownership_check_spec (wt : Table WorkoutRec) (pt : Table PlannedWorkoutRec)
    (wid uid : String) (body : PlannedWorkoutRec) :
    ((∃ v, (delete_workout wt wid uid).1 = Except.ok v) ↔
      (∃ item, wt wid = some item ∧ item.user_id = some uid)) ∧
    (¬ (∃ item, wt wid = some item ∧ item.user_id = some uid) →
      (delete_workout wt wid uid).2 = wt ∧
      (delete_workout wt wid uid).1 = Except.error "Workout not found") ∧
    ((∃ v, get_planned_workout pt wid uid = Except.ok v) ↔
      (∃ item, pt wid = some item ∧ item.user_id = some uid)) ∧
    (∀ v, get_planned_workout pt wid uid = Except.ok v →
      pt wid = some v ∧ v.user_id = some uid) ∧
    ((∃ v, (update_planned_workout pt wid body uid).1 = Except.ok v) ↔
      (∃ item, pt wid = some item ∧ item.user_id = some uid)) ∧
    (¬ (∃ item, pt wid = some item ∧ item.user_id = some uid) →
      (update_planned_workout pt wid body uid).2 = pt ∧
      (update_planned_workout pt wid body uid).1 =
        Except.error "Planned workout not found") ∧
    (∀ v, (update_planned_workout pt wid body uid).1 = Except.ok v →
      v.user_id = some uid) ∧
    ((∃ v, (delete_planned_workout pt wid uid).1 = Except.ok v) ↔
      (∃ item, pt wid = some item ∧ item.user_id = some uid)) ∧
    (¬ (∃ item, pt wid = some item ∧ item.user_id = some uid) →
      (delete_planned_workout pt wid uid).2 = pt ∧
      (delete_planned_workout pt wid uid).1 =
        Except.error "Planned workout not found") := by
  refine ⟨?_, ?_, ?_, ?_, ?_, ?_, ?_, ?_, ?_⟩ <;>
    simp only [delete_workout, get_planned_workout, update_planned_workout,
      delete_planned_workout] <;>
    (first
      | (rcases hw : wt wid with _ | item
         · simp [hw]
         · by_cases ho : item.user_id = some uid <;> simp [hw, ho])
      | (rcases hp : pt wid with _ | item
         · simp [hp]
         · by_cases ho : item.user_id = some uid <;> simp [hp, ho]))

/-- Witness for C7: on the sample table, the owner's read succeeds and
returns the owner's record, and a stranger's update fails with not-found
leaving the table unchanged. -/
theorem ownership_check_spec_witness :
    (samplePlannedTable "w1" = some { user_id := some "alice" } ∧
      ({ user_id := some "alice" } : PlannedWorkoutRec).user_id = some "alice") ∧
    ((update_planned_workout samplePlannedTable "w1" {} "bob").2 = samplePlannedTable ∧
      (update_planned_workout samplePlannedTable "w1" {} "bob").1 =
        Except.error "Planned workout not found") :=
  ⟨(ownership_check_spec (fun _ => none) samplePlannedTable "w1" "alice" {}).2.2.2.1
      { user_id := some "alice" } rfl,
   (ownership_check_spec (fun _ => none) samplePlannedTable "w1" "bob" {}).2.2.2.2.2.1
      (by
        rintro ⟨item, hi, hu⟩
        simp only [samplePlannedTable, if_pos rfl] at hi
        cases hi
        exact absurd hu (by decide))⟩

/-- Membership in `insertDesc`: the inserted element or an original one. -/
theorem mem_insertDesc {a d : Int} {l : List Int} :
    a ∈ insertDesc d l ↔ a = d ∨ a ∈ l := by
  induction l with
  | nil => simp [insertDesc]
  | cons x xs ih =>
      unfold insertDesc
      split_ifs with h1 h2
      · simp [List.mem_cons]
      · subst h2
        simp [List.mem_cons]
      · simp only [List.mem_cons, ih]
        tauto

/-- Insertion by `insertDesc` preserves strict descending order. -/
theorem pairwise_insertDesc {d : Int} {l : List Int}
    (h : l.Pairwise (· > ·)) : (insertDesc d l).Pairwise (· > ·) := by
  induction l with
  | nil => simp [insertDesc]
  | cons x xs ih =>
      rw [List.pairwise_cons] at h
      obtain ⟨hx, hxs⟩ := h
      unfold insertDesc
      split_ifs with h1 h2
      · refine List.pairwise_cons.mpr ⟨?_, List.pairwise_cons.mpr ⟨hx, hxs⟩⟩
        intro b hb
        rcases List.mem_cons.mp hb with rfl | hb
        · exact h1
        · exact lt_trans (hx b hb) h1
      · exact List.pairwise_cons.mpr ⟨hx, hxs⟩
      · refine List.pairwise_cons.mpr ⟨?_, ih hxs⟩
        intro b hb
        rcases mem_insertDesc.mp hb with rfl | hb
        · omega
        · exact hx b hb

/-- The list `sortedUniqueDesc` produces is strictly descending. -/
theorem pairwise_sortedUniqueDesc (l : List Int) :
    (sortedUniqueDesc l).Pairwise (· > ·) := by
  induction l with
  | nil => simp [sortedUniqueDesc]
  | cons x xs ih => exact pairwise_insertDesc ih

/-- The list `sortedUniqueDesc` produces has exactly the members of its input. -/
theorem mem_sortedUniqueDesc {a : Int} {l : List Int} :
    a ∈ sortedUniqueDesc l ↔ a ∈ l := by
  induction l with
  | nil => simp [sortedUniqueDesc]
  | cons x xs ih =>
      show a ∈ insertDesc x (sortedUniqueDesc xs) ↔ _
      rw [mem_insertDesc, ih]
      simp [List.mem_cons]

/-- The result of `sortedUniqueDesc` on a nonempty list is nonempty. -/
theorem sortedUniqueDesc_ne_nil {l : List Int} (h : l ≠ []) :
    sortedUniqueDesc l ≠ [] := by
  obtain ⟨x, xs, rfl⟩ := List.exists_cons_of_ne_nil h
  intro hnil
  have hx : x ∈ sortedUniqueDesc (x :: xs) :=
    mem_sortedUniqueDesc.mpr (List.mem_cons_self x xs)
  rw [hnil] at hx
  cases hx

/-- On a strictly descending list bounded by the cursor, the streak
extension loop counts exactly the leading consecutive run — the skip branch
for a date above the cursor is unreachable there. -/
theorem currentStreakLoop_eq_consecRun (c : Int) {l : List Int}
    (hs : l.Pairwise (· > ·)) (hb : ∀ x ∈ l, x ≤ c) :
    currentStreakLoop c l = consecRun c l := by
  induction l generalizing c with
  | nil => rfl
  | cons d ds ih =>
      rw [List.pairwise_cons] at hs
      obtain ⟨hd, hds⟩ := hs
      by_cases h1 : d = c
      · subst h1
        unfold currentStreakLoop consecRun
        rw [if_pos rfl, if_pos rfl]
        have h5 := ih (d - 1) hds (fun x hx => by have h4 := hd x hx; omega)
        omega
      · have hlt : d < c := lt_of_le_of_ne (hb d (List.mem_cons_self d ds)) h1
        unfold currentStreakLoop consecRun
        rw [if_neg h1, if_pos hlt, if_neg h1]

/-- The longest-streak scan never drops below the best seen so far. -/
theorem longestStreakLoop_ge_best (prev : Int) (run best : Nat) (l : List Int) :
    best ≤ longestStreakLoop prev run best l := by
  induction l generalizing prev run best with
  | nil => exact le_rfl
  | cons d ds ih =>
      unfold longestStreakLoop
      split_ifs with h
      · exact le_trans (le_max_left _ _) (ih d (run + 1) (max best (run + 1)))
      · exact ih d 1 best

/-- The longest-streak scan dominates the current run extended by the
consecutive run continuing it. -/
theorem longestStreakLoop_ge_run (prev : Int) (run best : Nat) (l : List Int)
    (h : run ≤ best) :
    run + consecRun (prev - 1) l ≤ longestStreakLoop prev run best l := by
  induction l generalizing prev run best with
  | nil => simpa [longestStreakLoop, consecRun] using h
  | cons d ds ih =>
      by_cases hd : d = prev - 1
      · unfold longestStreakLoop consecRun
        rw [if_pos hd, if_pos hd]
        have h2 := ih d (run + 1) (max best (run + 1)) (le_max_right _ _)
        have h3 : d - 1 = prev - 1 - 1 := by omega
        rw [h3] at h2
        omega
      · unfold longestStreakLoop consecRun
        rw [if_neg hd, if_neg hd]
        have h2 := longestStreakLoop_ge_best d 1 best ds
        omega

/-- Evaluation of `calculate_streak` on a nonempty workout list whose
sorted unique date list is known. -/
theorem calculate_streak_cons_eq (now : Int) (w0 : WorkoutItem) (ws0 : List WorkoutItem)
    (m : Int) (rest : List Int)
    (hms : sortedUniqueDesc ((w0 :: ws0).map (fun w => dayOf w.parsed_date)) = m :: rest) :
    calculate_streak now (w0 :: ws0) =
      { current_streak :=
          if m ≥ dayOf now - 1 then 1 + currentStreakLoop (m - 1) rest else 0
        longest_streak := longestStreakLoop m 1 1 rest
        last_workout_date := some (isoDate m) } := by
  unfold calculate_streak
  simp only [List.isEmpty_cons, hms]
  rfl

/-- C2 counterexample: a single workout dated five days in the future of
"today" yields a nonzero current streak (the aliveness test is
`most_recent ≥ yesterday`, which future dates pass), though the most recent
unique date is neither today nor yesterday. -/
theorem calculate_streak_counterexample :
    (calculate_streak 0 [⟨5 * usPerDay, none, none, none⟩]).current_streak = 1 ∧
    dayOf (5 * usPerDay) ≠ dayOf 0 ∧
    dayOf (5 * usPerDay) ≠ dayOf 0 - 1 := by
  refine ⟨by decide, by decide, by decide⟩

/-- C2 (amended): the current streak is 0 for an empty workout list; for a
nonempty list with most recent unique calendar date `m`, the current streak
is nonzero iff `m` is on or after yesterday (this includes future dates),
and in that case it equals 1 plus the count of strictly older unique dates
forming an unbroken run of consecutive calendar days backward from `m`. -/
theorem calculate_streak_current_spec (now : Int) (workouts : List WorkoutItem) :
    (workouts = [] → (calculate_streak now workouts).current_streak = 0) ∧
    (∀ m rest,
      sortedUniqueDesc (workouts.map (fun w => dayOf w.parsed_date)) = m :: rest →
      (m ∈ workouts.map (fun w => dayOf w.parsed_date) ∧
        ∀ x ∈ workouts.map (fun w => dayOf w.parsed_date), x ≤ m) ∧
      ((calculate_streak now workouts).current_streak ≠ 0 ↔ dayOf now - 1 ≤ m) ∧
      (dayOf now - 1 ≤ m →
        (calculate_streak now workouts).current_streak = 1 + consecRun (m - 1) rest)) := by
  constructor
  · rintro rfl
    rfl
  · intro m rest hms
    have hne : workouts ≠ [] := by
      rintro rfl
      simp [sortedUniqueDesc] at hms
    obtain ⟨w0, ws0, rfl⟩ := List.exists_cons_of_ne_nil hne
    have hpw := pairwise_sortedUniqueDesc (List.map (fun w => dayOf w.parsed_date) (w0 :: ws0))
    rw [hms, List.pairwise_cons] at hpw
    obtain ⟨hm, hrest⟩ := hpw
    have heq := calculate_streak_cons_eq now w0 ws0 m rest hms
    refine ⟨⟨?_, ?_⟩, ?_, ?_⟩
    · exact mem_sortedUniqueDesc.mp (by rw [hms]; exact List.mem_cons_self m rest)
    · intro x hx
      have hx2 := mem_sortedUniqueDesc.mpr hx
      rw [hms] at hx2
      rcases List.mem_cons.mp hx2 with rfl | hx3
      · exact le_rfl
      · exact le_of_lt (hm x hx3)
    · rw [heq]
      dsimp only
      split_ifs with h
      · exact ⟨fun _ => h, fun _ => by omega⟩
      · exact ⟨fun h0 => absurd rfl h0, fun h1 => absurd h1 h⟩
    · intro halive
      rw [heq]
      dsimp only
      rw [if_pos halive]
      congr 1
      exact currentStreakLoop_eq_consecRun (m - 1) hrest
        (fun x hx => by have h6 := hm x hx; omega)

/-- Witness for C2 on a two-day streak ending today. -/
theorem calculate_streak_current_spec_witness :
    (calculate_streak (10 * usPerDay)
      [⟨10 * usPerDay, none, none, none⟩, ⟨9 * usPerDay, none, none, none⟩]).current_streak =
      1 + consecRun (10 - 1) [9] :=
  ((calculate_streak_current_spec (10 * usPerDay)
      [⟨10 * usPerDay, none, none, none⟩, ⟨9 * usPerDay, none, none, none⟩]).2 10 [9]
      (by decide)).2.2 (by decide)

/-- C9: `calculate_streak` always returns `longest_streak ≥ current_streak`,
and a nonempty workout list always has `longest_streak ≥ 1`. -/
theorem streak_longest_ge_current (now : Int) (workouts : List WorkoutItem) :
    (calculate_streak now workouts).current_streak ≤
      (calculate_streak now workouts).longest_streak ∧
    (workouts ≠ [] → 1 ≤ (calculate_streak now workouts).longest_streak) := by
  rcases workouts with _ | ⟨w0, ws0⟩
  · exact ⟨le_rfl, fun h => absurd rfl h⟩
  · rcases hsort : sortedUniqueDesc (List.map (fun w => dayOf w.parsed_date) (w0 :: ws0))
      with _ | ⟨m, rest⟩
    · exact absurd hsort (sortedUniqueDesc_ne_nil (by simp))
    · have hpw := pairwise_sortedUniqueDesc (List.map (fun w => dayOf w.parsed_date) (w0 :: ws0))
      rw [hsort, List.pairwise_cons] at hpw
      obtain ⟨hm, hrest⟩ := hpw
      rw [calculate_streak_cons_eq now w0 ws0 m rest hsort]
      dsimp only
      constructor
      · split_ifs with h
        · rw [currentStreakLoop_eq_consecRun (m - 1) hrest
            (fun x hx => by have h6 := hm x hx; omega)]
          exact longestStreakLoop_ge_run m 1 1 rest le_rfl
        · exact Nat.zero_le _
      · intro h2
        exact longestStreakLoop_ge_best m 1 1 rest

/-- Witness for C9 on a one-workout list. -/
theorem streak_longest_ge_current_witness :
    1 ≤ (calculate_streak 0 [⟨0, none, none, none⟩]).longest_streak :=
  (streak_longest_ge_current 0 [⟨0, none, none, none⟩]).2 (by decide)

/-- Python `round(x, 1)` of an integral value is exact. -/
theorem round1_intCast (n : ℤ) : round1 ((n : ℚ)) = (n : ℚ) := by
  have h1 : ((n : ℚ) * 10) = ((n * 10 : ℤ) : ℚ) := by push_cast; ring
  simp only [round1, roundHalfEven, h1, Int.floor_intCast, sub_self]
  rw [if_pos (by norm_num : (0 : ℚ) < 1 / 2)]
  push_cast
  ring

/-- C6: on a single workout, `calculate_consistency_stats` reports
`avg_workouts_per_week = 1.0` (the one-day range makes the week denominator
`max(1/7, 1)` floor to 1) and `avg_duration_per_workout` equal to that
workout's duration. -/
theorem consistency_stats_singleton (w : WorkoutItem) :
    (calculate_consistency_stats [w]).avg_workouts_per_week = 1 ∧
    (calculate_consistency_stats [w]).avg_duration_per_workout = ((durOf w : ℚ)) := by
  unfold calculate_consistency_stats
  dsimp only [List.map_nil, List.foldl_nil, List.length_cons, List.length_nil,
    List.map_cons, List.sum_cons, List.sum_nil]
  constructor
  · rw [show (dayOf w.parsed_date - dayOf w.parsed_date + 1 : Int) = 1 by omega]
    rw [max_eq_right (by norm_num : ((1 : ℤ) : ℚ) / 7 ≤ 1)]
    rw [div_one]
    simpa using round1_intCast 1
  · rw [add_zero, Nat.cast_one, div_one]
    exact round1_intCast (durOf w)

theorem lookupCount_cons (q : String × Nat) (qs : List (String × Nat)) (k : String) :
    lookupCount (q :: qs) k = if q.1 = k then q.2 else lookupCount qs k := by
  unfold lookupCount
  by_cases h : q.1 = k
  · rw [List.find?_cons_of_pos _ (by simpa using h), if_pos h]
  · rw [List.find?_cons_of_neg _ (by simpa using h), if_neg h]

theorem lookupCount_bumpKey_same (acc : List (String × Nat)) (k : String) :
    lookupCount (bumpKey acc k) k = lookupCount acc k + 1 := by
  unfold bumpKey
  split_ifs with h
  · induction acc with
    | nil => simp at h
    | cons q qs ih =>
        simp only [List.any_cons, Bool.or_eq_true, decide_eq_true_eq] at h
        by_cases hq : q.1 = k
        · simp only [List.map_cons, if_pos hq, lookupCount_cons]
        · simp only [List.map_cons, if_neg hq, lookupCount_cons, if_neg hq]
          rcases h with h | h
          · exact absurd h hq
          · exact ih (by simpa using h)
  · induction acc with
    | nil => simp [lookupCount, List.find?]
    | cons q qs ih =>
        have hq : ¬ q.1 = k := fun hqk => h (by simp [List.any_cons, hqk])
        have h2 : ¬ (qs.any fun p => decide (p.1 = k)) = true := fun hk =>
          h (by simp only [List.any_cons, Bool.or_eq_true]; right; exact hk)
        simp only [List.cons_append, lookupCount_cons, if_neg hq]
        exact ih h2

theorem lookupCount_map_bump_ne (qs : List (String × Nat)) (k k2 : String)
    (hne : k2 ≠ k) :
    lookupCount (qs.map (fun p => if p.1 = k then (p.1, p.2 + 1) else p)) k2 =
      lookupCount qs k2 := by
  induction qs with
  | nil => rfl
  | cons q qs ih =>
      by_cases hq : q.1 = k
      · simp only [List.map_cons, if_pos hq, lookupCount_cons]
        rw [if_neg (by rw [hq]; exact fun hh => hne hh.symm),
          if_neg (by rw [hq]; exact fun hh => hne hh.symm), ih]
      · simp only [List.map_cons, if_neg hq, lookupCount_cons]
        by_cases h2 : q.1 = k2
        · rw [if_pos h2, if_pos h2]
        · rw [if_neg h2, if_neg h2, ih]

theorem lookupCount_append_ne (qs : List (String × Nat)) (k k2 : String)
    (hne : k2 ≠ k) :
    lookupCount (qs ++ [(k, 1)]) k2 = lookupCount qs k2 := by
  induction qs with
  | nil =>
      simp only [List.nil_append, lookupCount_cons]
      rw [if_neg (fun hh => hne hh.symm)]
  | cons q qs ih =>
      simp only [List.cons_append, lookupCount_cons, ih]

theorem lookupCount_bumpKey_ne (acc : List (String × Nat)) (k k2 : String)
    (hne : k2 ≠ k) :
    lookupCount (bumpKey acc k) k2 = lookupCount acc k2 := by
  unfold bumpKey
  split_ifs with h
  · exact lookupCount_map_bump_ne acc k k2 hne
  · exact lookupCount_append_ne acc k k2 hne

theorem bumpKey_map_fst (acc : List (String × Nat)) (k : String) :
    (bumpKey acc k).map Prod.fst =
      if (acc.any fun p => p.1 = k) = true then acc.map Prod.fst
      else acc.map Prod.fst ++ [k] := by
  unfold bumpKey
  split_ifs with h
  · rw [List.map_map]
    congr 1
    funext p
    by_cases hp : p.1 = k <;> simp [hp]
  · simp

theorem any_key_iff (acc : List (String × Nat)) (k : String) :
    (acc.any fun p => p.1 = k) = true ↔ k ∈ acc.map Prod.fst := by
  simp only [List.any_eq_true, decide_eq_true_eq, List.mem_map]

theorem bumpKey_nodup (acc : List (String × Nat)) (k : String)
    (h : (acc.map Prod.fst).Nodup) : ((bumpKey acc k).map Prod.fst).Nodup := by
  rw [bumpKey_map_fst]
  split_ifs with hk
  · exact h
  · refine List.Nodup.append h (List.nodup_singleton k) ?_
    intro a ha hb
    simp only [List.mem_singleton] at hb
    subst hb
    exact hk ((any_key_iff acc a).mpr ha)

theorem lookupCount_foldl (l : List String) (acc : List (String × Nat)) (k : String) :
    lookupCount (l.foldl bumpKey acc) k = lookupCount acc k + l.count k := by
  induction l generalizing acc with
  | nil => simp
  | cons x xs ih =>
      rw [List.foldl_cons, ih, List.count_cons]
      by_cases hx : k = x
      · subst hx
        rw [lookupCount_bumpKey_same]
        simp
        omega
      · rw [lookupCount_bumpKey_ne acc x k hx]
        have h3 : ¬ x = k := fun hh => hx hh.symm
        simp [hx, h3]

theorem keys_foldl (l : List String) (acc : List (String × Nat)) (k : String) :
    k ∈ (l.foldl bumpKey acc).map Prod.fst ↔ k ∈ acc.map Prod.fst ∨ k ∈ l := by
  induction l generalizing acc with
  | nil => simp
  | cons x xs ih =>
      rw [List.foldl_cons, ih, bumpKey_map_fst]
      split_ifs with h
      · have hx := (any_key_iff acc x).mp h
        simp only [List.mem_cons]
        constructor
        · rintro (h1 | h1)
          · exact Or.inl h1
          · exact Or.inr (Or.inr h1)
        · rintro (h1 | rfl | h1)
          · exact Or.inl h1
          · exact Or.inl hx
          · exact Or.inr h1
      · simp only [List.mem_append, List.mem_singleton, List.mem_cons]
        tauto

theorem nodup_foldl (l : List String) (acc : List (String × Nat))
    (h : (acc.map Prod.fst).Nodup) : ((l.foldl bumpKey acc).map Prod.fst).Nodup := by
  induction l generalizing acc with
  | nil => exact h
  | cons x xs ih => exact ih _ (bumpKey_nodup acc x h)

theorem keys_tally (l : List String) (k : String) :
    k ∈ (tally l).map Prod.fst ↔ k ∈ l := by
  unfold tally
  rw [keys_foldl]
  simp

theorem count_tally (l : List String) (k : String) :
    lookupCount (tally l) k = l.count k := by
  unfold tally
  rw [lookupCount_foldl]
  simp [lookupCount]

theorem lookupCount_of_mem (acc : List (String × Nat)) (p : String × Nat)
    (hnd : (acc.map Prod.fst).Nodup) (hp : p ∈ acc) :
    lookupCount acc p.1 = p.2 := by
  induction acc with
  | nil => cases hp
  | cons q qs ih =>
      rw [List.map_cons, List.nodup_cons] at hnd
      obtain ⟨hq, hnd2⟩ := hnd
      rcases List.mem_cons.mp hp with rfl | hp2
      · rw [lookupCount_cons, if_pos rfl]
      · rw [lookupCount_cons, if_neg ?_]
        · exact ih hnd2 hp2
        · intro he
          exact hq (by rw [he]; exact List.mem_map.mpr ⟨p, hp2, rfl⟩)

theorem foldl_pick_spec (x : String × Nat) (xs : List (String × Nat)) :
    (xs.foldl (fun best p => if p.2 > best.2 then p else best) x) ∈ x :: xs ∧
    ∀ p ∈ x :: xs,
      p.2 ≤ (xs.foldl (fun best p => if p.2 > best.2 then p else best) x).2 := by
  induction xs generalizing x with
  | nil =>
      refine ⟨List.mem_singleton_self x, ?_⟩
      intro p hp
      rw [List.mem_singleton] at hp
      subst hp
      exact le_rfl
  | cons y ys ih =>
      rw [List.foldl_cons]
      obtain ⟨ih1, ih2⟩ := ih (if y.2 > x.2 then y else x)
      constructor
      · rcases List.mem_cons.mp ih1 with h | h
        · rw [h]
          split_ifs
          · exact List.mem_cons.mpr (Or.inr (List.mem_cons_self y ys))
          · exact List.mem_cons_self x _
        · exact List.mem_cons.mpr (Or.inr (List.mem_cons.mpr (Or.inr h)))
      · intro p hp
        rcases List.mem_cons.mp hp with rfl | hp2
        · have h1 : p.2 ≤ (if y.2 > p.2 then y else p).2 := by
            split_ifs with h <;> omega
          exact le_trans h1 (ih2 _ (List.mem_cons_self _ _))
        · rcases List.mem_cons.mp hp2 with rfl | hp3
          · have h1 : p.2 ≤ (if p.2 > x.2 then p else x).2 := by
              split_ifs with h <;> omega
            exact le_trans h1 (ih2 _ (List.mem_cons_self _ _))
          · exact ih2 p (List.mem_cons.mpr (Or.inr hp3))



/-- C10 (amended): for every non-empty workout list,
`favorite_workout_type` is a maximally frequent raw type value rendered by
Python `str.capitalize()` (first character uppercased, the rest lowercased
— "HIIT" becomes "Hiit"), except that the literal value "N/A" is left
untransformed even when it is a genuine stored type. -/
theorem consistency_favorite_type_spec (workouts : List WorkoutItem)
    (hw : workouts ≠ []) :
    ∃ t, t ∈ workouts.map typeOf ∧
      (∀ u ∈ workouts.map typeOf,
        (workouts.map typeOf).count u ≤ (workouts.map typeOf).count t) ∧
      (calculate_consistency_stats workouts).favorite_workout_type =
        (if t ≠ "N/A" then pyCapitalize t else "N/A") := by
  obtain ⟨w0, rest, rfl⟩ := List.exists_cons_of_ne_nil hw
  have hfav : (calculate_consistency_stats (w0 :: rest)).favorite_workout_type =
      (if firstMaxKey (tally ((w0 :: rest).map typeOf)) "N/A" ≠ "N/A"
        then pyCapitalize (firstMaxKey (tally ((w0 :: rest).map typeOf)) "N/A")
        else "N/A") := by
    rfl
  rcases htl : tally ((w0 :: rest).map typeOf) with _ | ⟨x, xs⟩
  · exfalso
    have hk : typeOf w0 ∈ (tally ((w0 :: rest).map typeOf)).map Prod.fst := by
      rw [keys_tally]
      exact List.mem_map.mpr ⟨w0, List.mem_cons_self w0 rest, rfl⟩
    rw [htl] at hk
    cases hk
  · obtain ⟨hb1, hb2⟩ := foldl_pick_spec x xs
    set b := xs.foldl (fun best p => if p.2 > best.2 then p else best) x with hbdef
    have hbmem : b ∈ tally ((w0 :: rest).map typeOf) := by rw [htl]; exact hb1
    have hnd : ((tally ((w0 :: rest).map typeOf)).map Prod.fst).Nodup :=
      nodup_foldl _ [] (by simp)
    have hbcount : (((w0 :: rest).map typeOf)).count b.1 = b.2 := by
      have h1 := lookupCount_of_mem _ b hnd hbmem
      rw [count_tally] at h1
      exact h1
    refine ⟨b.1, ?_, ?_, ?_⟩
    · have hk : b.1 ∈ (tally ((w0 :: rest).map typeOf)).map Prod.fst :=
        List.mem_map.mpr ⟨b, hbmem, rfl⟩
      rw [keys_tally] at hk
      exact hk
    · intro u hu
      have hk : u ∈ (tally ((w0 :: rest).map typeOf)).map Prod.fst := by
        rw [keys_tally]
        exact hu
      obtain ⟨q, hq, hqfst⟩ := List.mem_map.mp hk
      have hqcount : (((w0 :: rest).map typeOf)).count q.1 = q.2 := by
        have h1 := lookupCount_of_mem _ q hnd hq
        rw [count_tally] at h1
        exact h1
      rw [← hqfst, hqcount, hbcount]
      apply hb2
      rw [← htl]
      exact hq
    · rw [hfav]
      congr 2 <;> (rw [htl]; rfl)

/-- Witness for C10 at a one-workout list with stored type "HIIT". -/
theorem consistency_favorite_type_witness :
    ∃ t, t ∈ [(⟨0, none, none, some "HIIT"⟩ : WorkoutItem)].map typeOf ∧
      (∀ u ∈ [(⟨0, none, none, some "HIIT"⟩ : WorkoutItem)].map typeOf,
        ([(⟨0, none, none, some "HIIT"⟩ : WorkoutItem)].map typeOf).count u ≤
          ([(⟨0, none, none, some "HIIT"⟩ : WorkoutItem)].map typeOf).count t) ∧
      (calculate_consistency_stats [⟨0, none, none, some "HIIT"⟩]).favorite_workout_type =
        (if t ≠ "N/A" then pyCapitalize t else "N/A") :=
  consistency_favorite_type_spec [⟨0, none, none, some "HIIT"⟩] (by decide)

/-- C10 counterexample: a non-empty list whose (only, hence most frequent)
stored type is the literal string "N/A" keeps it untransformed — the code
guards on the value, not on list emptiness — while `str.capitalize()` would
render "N/a". -/
theorem consistency_favorite_type_counterexample :
    [(⟨0, none, none, some "N/A"⟩ : WorkoutItem)] ≠ [] ∧
    (calculate_consistency_stats [⟨0, none, none, some "N/A"⟩]).favorite_workout_type = "N/A" ∧
    pyCapitalize "N/A" = "N/a" ∧ ("N/A" : String) ≠ "N/a" := by
  refine ⟨by decide, by rfl, by rfl, by decide⟩

/-- An instant on a Saturday with a nonzero sub-second part past 23:59:59
falls in no week window of `get_week_bounds`, for any reference and any
week offset. -/
theorem inWeek_stray_false (now t weeksAgo : Int)
    (hsat : pyWeekday t = 5) (hsub : t % usPerDay > 86399 * 1000000) :
    inWeek now weeksAgo t = false := by
  unfold pyWeekday dayOf usPerDay at hsat
  unfold usPerDay at hsub
  unfold inWeek get_week_bounds pyWeekday dayOf usPerDay
  dsimp only
  rw [decide_eq_false_iff_not]
  omega

/-- Distinct week offsets give disjoint inclusive week windows. -/
theorem inWeek_disjoint (now t j k : Int) (hjk : j ≠ k) :
    ¬(inWeek now j t = true ∧ inWeek now k t = true) := by
  unfold inWeek get_week_bounds pyWeekday dayOf usPerDay
  dsimp only
  simp only [decide_eq_true_eq]
  omega

/-- C8: the weekly windows for distinct `weeks_ago` values are pairwise
disjoint, yet an instant strictly between a Saturday 23:59:59 and the next
Sunday midnight (nonzero sub-second part in the final second) matches no
window's inclusive filter; a workout record with such a parsed timestamp
therefore changes neither the frequency series, the calorie series, the
weekly progress, nor the week comparison. -/
theorem stray_second_not_counted (now : Int) (w : WorkoutItem)
    (ws : List WorkoutItem) (profile : ProfileGoal)
    (hsat : pyWeekday w.parsed_date = 5)
    (hsub : w.parsed_date % usPerDay > 86399 * 1000000) :
    (∀ t j k : Int, j ≠ k → ¬(inWeek now j t = true ∧ inWeek now k t = true)) ∧
    (∀ j : Int, inWeek now j w.parsed_date = false) ∧
    calculate_workout_frequency now (w :: ws) = calculate_workout_frequency now ws ∧
    calculate_calories_over_time now (w :: ws) = calculate_calories_over_time now ws ∧
    calculate_weekly_progress now (w :: ws) profile =
      calculate_weekly_progress now ws profile ∧
    calculate_week_comparison now (w :: ws) = calculate_week_comparison now ws := by
  have hgap : ∀ j : Int, inWeek now j w.parsed_date = false :=
    fun j => inWeek_stray_false now w.parsed_date j hsat hsub
  have hfilter : ∀ j : Int, (w :: ws).filter (fun x => inWeek now j x.parsed_date) =
      ws.filter (fun x => inWeek now j x.parsed_date) := by
    intro j
    rw [List.filter_cons]
    simp [hgap j]
  refine ⟨fun t j k hjk => inWeek_disjoint now t j k hjk, hgap, ?_, ?_, ?_, ?_⟩
  · unfold calculate_workout_frequency
    apply List.map_congr_left
    intro a ha
    rw [hfilter]
  · unfold calculate_calories_over_time
    apply List.map_congr_left
    intro a ha
    rw [hfilter]
  · unfold calculate_weekly_progress
    rw [hfilter 0]
  · unfold calculate_week_comparison
    rw [hfilter 0, hfilter 1]

/-- Witness for C8: a workout at Saturday 1970-01-03 23:59:59.5 UTC is
counted in no bucket of the frequency series. -/
theorem stray_second_not_counted_witness :
    calculate_workout_frequency 0 [⟨259199500000, none, none, none⟩] =
      calculate_workout_frequency 0 [] :=
  (stray_second_not_counted 0 ⟨259199500000, none, none, none⟩ [] {}
    (by decide) (by decide)).2.2.1

end FitnessBackend
